import Mathlib

/-!
Verification of the JoyBox Django/DRF storefront against its specification.

Shallow embedding of the application-level logic of `joybox/core`
(views, serializers, exception handler, profanity filter, audit writer,
model metadata) as executable Lean definitions, followed by theorems
settling the specification claims.

Conventions of the embedding:
* Django/Python `int` values are `Int`; ids and primary keys are `Nat`
  where the code only ever handles auto-assigned keys.
* Python strings are `String`; `None` is `Option.none`.
* Fallible Python code (code that may raise) is `Except String _`.
* Database side effects are recorded as explicit `DbEffect` traces;
  `transaction.atomic` is modelled by discarding the trace of a failing
  body (PostgreSQL rolls the transaction back).
-/

namespace JoyBox

/-! ## Model metadata (joybox/core/models.py)

The `Meta` options of each Django model, translated field-for-field from
`models.py`: the `managed` flag and the explicit `db_table` name. -/

structure ModelMeta where
  name : String
  managed : Bool
  dbTable : Option String
deriving DecidableEq

def joyboxModels : List ModelMeta :=
  [ ⟨"Role", false, some "role"⟩
  , ⟨"User", false, some "user"⟩
  , ⟨"Category", false, some "category"⟩
  , ⟨"Brand", false, some "brand"⟩
  , ⟨"Product", false, some "product"⟩
  , ⟨"ProductImage", false, some "productImage"⟩
  , ⟨"ProductAttribute", false, some "productAttribute"⟩
  , ⟨"Address", false, some "address"⟩
  , ⟨"OrderStatus", false, some "orderStatus"⟩
  , ⟨"Order", false, some "order"⟩
  , ⟨"OrderItem", false, some "orderItem"⟩
  , ⟨"Review", false, some "review"⟩
  , ⟨"Wishlist", false, some "wishlist"⟩
  , ⟨"Cart", false, some "cart"⟩
  , ⟨"ParentChild", false, some "parentChild"⟩
  , ⟨"AuditLog", false, some "auditLog"⟩
  ]

/-! ## Profanity filter (joybox/core/profanity.py) -/

/-- Embedding of `PROFANITY_WORDS` from `profanity.py`, verbatim. -/
def PROFANITY_WORDS : List String :=
  [ "бля", "блять", "блядь", "хуй", "хуя", "пизда", "хуйня", "пизду", "ебать", "ебал", "ёбаный"
  , "сука", "суки", "мудак", "мудила", "дерьмо", "гавно", "жопа", "залупа", "хер"
  , "нахер", "похер", "блядина", "блядский", "ебаный", "ёб", "выблядок", "ублюдок"
  ]

/-- Python `str.lower()` restricted to the alphabets this code handles:
ASCII letters and Cyrillic А-Я / Ё. -/
def pyLower (c : Char) : Char :=
  if 65 ≤ c.toNat ∧ c.toNat ≤ 90 then Char.ofNat (c.toNat + 32)
  else if 0x410 ≤ c.toNat ∧ c.toNat ≤ 0x42F then Char.ofNat (c.toNat + 0x20)
  else if c.toNat = 0x401 then Char.ofNat 0x451
  else c

/-- Python regex `\w` (word character), restricted to ASCII plus Cyrillic:
letters, digits and underscore. -/
def isWordChar (c : Char) : Bool :=
  (97 ≤ c.toNat ∧ c.toNat ≤ 122) ∨ (65 ≤ c.toNat ∧ c.toNat ≤ 90) ∨
  (48 ≤ c.toNat ∧ c.toNat ≤ 57) ∨ c = '_' ∨
  (0x410 ≤ c.toNat ∧ c.toNat ≤ 0x44F) ∨ c.toNat = 0x401 ∨ c.toNat = 0x451

/-- A character matched by the token regex `[а-яёa-z0-9]+` in
`contains_profanity`. -/
def isTokenChar (c : Char) : Bool :=
  (97 ≤ c.toNat ∧ c.toNat ≤ 122) ∨ (48 ≤ c.toNat ∧ c.toNat ≤ 57) ∨
  (0x430 ≤ c.toNat ∧ c.toNat ≤ 0x44F) ∨ c.toNat = 0x451

/-- Embedding of the token regex findall (character class а-яё, a-z, 0-9): the maximal runs of token
characters, in order.  `acc` is the current run, reversed. -/
def findTokens : List Char → List Char → List String
  | [], acc => if acc.isEmpty then [] else [String.mk acc.reverse]
  | c :: cs, acc =>
      if isTokenChar c then findTokens cs (c :: acc)
      else if acc.isEmpty then findTokens cs []
      else String.mk acc.reverse :: findTokens cs []

/-- Embedding of the normalisation substitution in `contains_profanity`: lowercase, then replace each
character that is neither a word character nor whitespace by a space. -/
def normalizeText (t : String) : List Char :=
  (t.toList.map pyLower).map (fun c => if isWordChar c ∨ c.isWhitespace then c else ' ')

/-- Embedding of `contains_profanity` from `profanity.py`.  `none` models Python `None`. -/
def contains_profanity (text : Option String) : Bool :=
  match text with
  | none => false
  | some t =>
      if t.isEmpty ∨ (t.toList.all Char.isWhitespace) then false
      else (findTokens (normalizeText t) []).any (fun w => PROFANITY_WORDS.contains w)

/-! ## Review serializers (joybox/core/serializers.py)

`ReviewCreateSerializer` / `ReviewUpdateSerializer`: `rating` is
`IntegerField(min_value=1, max_value=5)`, `reviewText` optional and
checked by `validate_reviewText`. -/

/-- The `rating` field bounds of `ReviewCreateSerializer` and
`ReviewUpdateSerializer`. -/
def validRating (r : Int) : Bool := 1 ≤ r ∧ r ≤ 5

/-- Embedding of `validate_reviewText` of both review serializers: `if value and
contains_profanity(value): raise ValidationError(...)`. -/
def validateReviewText (value : String) : Except String String :=
  if ¬ value.isEmpty ∧ contains_profanity (some value) then
    Except.error "Текст отзыва содержит недопустимые выражения. Измените формулировку."
  else Except.ok value

/-- Whether `ReviewCreateSerializer`/`ReviewUpdateSerializer` accept the
pair (rating, reviewText): both run the same field bounds and the same
`validate_reviewText`. -/
def reviewInputValid (rating : Int) (reviewText : Option String) : Bool :=
  validRating rating &&
    (match reviewText with
     | none => true
     | some v => (validateReviewText v).isOk)

/-! ## Cart serializers (joybox/core/serializers.py)

`CartAddSerializer`: `quantity = IntegerField(min_value=1, max_value=999,
default=1)`, `validate` rejects `qty > product.quantity`, `create` does
`get_or_create` and, for an existing line, merges and re-checks against
stock before saving.  `CartUpdateSerializer`: same field bounds, `update`
rejects `qty > product.quantity` before saving.

The stored cart line is modelled by its quantity (`Option Int`: `none`
when the user has no line for the product).  Each operation returns the
stored line after the request together with the error raised, if any; a
raised `ValidationError` happens before any `save()`, so the stored line
is returned unchanged on error. -/

/-- Embedding of `CartAddSerializer` end to end: field validation, `validate`, then
`create`.  `existing` is the stored line of the user for the product,
`stock` is `product.quantity` as read during validation. -/
def cartAdd (existing : Option Int) (stock qty : Int) :
    Option Int × Option String :=
  if ¬ (1 ≤ qty ∧ qty ≤ 999) then
    (existing, some "Некорректное количество.")
  else if qty > stock then
    (existing, some "На складе доступно меньше.")
  else
    match existing with
    | none => (some qty, none)
    | some e =>
        if e + qty > stock then
          (existing, some "Всего в корзине не должно превышать остаток.")
        else (some (e + qty), none)

/-- Embedding of `CartUpdateSerializer` end to end: field validation then `update`. -/
def cartUpdate (existing : Int) (stock qty : Int) : Int × Option String :=
  if ¬ (1 ≤ qty ∧ qty ≤ 999) then
    (existing, some "Некорректное количество.")
  else if qty > stock then
    (existing, some "На складе доступно меньше.")
  else (qty, none)

/-! ## Audit writer (joybox/core/audit.py) -/

/-- A user object as `log_audit` sees it: the `getattr` chain over
`userId` and `pk` collapses to these two optional ids. -/
structure AuditUser where
  userId : Option Int
  pk : Option Int

/-- A row of `auditLog` as written by `log_audit`.  The JSON payloads
`oldValues`/`newValues` are abstracted to optional strings. -/
structure AuditEntry where
  userId : Int
  action : String
  tableName : String
  recordId : Int
  oldValues : Option String
  newValues : Option String
deriving DecidableEq

/-- Python slice `s[:100]`: the first 100 code points. -/
def pyTruncate (n : Nat) (s : String) : String := String.mk (s.toList.take n)

/-- The body of `log_audit` before the enclosing `try`: the early
returns and the `AuditLog.objects.create` call.  `createOk` models
whether the database write succeeds; a failing write raises. -/
def logAuditBody (user : Option AuditUser) (action tableName : Option String)
    (recordId : Option Int) (oldValues newValues : Option String)
    (createOk : Bool) : Except String (Option AuditEntry) :=
  match user with
  | none => Except.ok none
  | some u =>
      match u.userId.orElse (fun _ => u.pk) with
      | none => Except.ok none
      | some uid =>
          match recordId with
          | none => Except.ok none
          | some rid =>
              if createOk then
                Except.ok (some
                  { userId := uid
                  , action := pyTruncate 100 (action.getD "")
                  , tableName := pyTruncate 100 (tableName.getD "")
                  , recordId := rid
                  , oldValues := oldValues
                  , newValues := newValues })
              else Except.error "database error"

/-- Embedding of `log_audit` from `audit.py`: the body wrapped in
`try: ... except Exception: pass`. -/
def log_audit (user : Option AuditUser) (action tableName : Option String)
    (recordId : Option Int) (oldValues newValues : Option String)
    (createOk : Bool) : Except String (Option AuditEntry) :=
  match logAuditBody user action tableName recordId oldValues newValues createOk with
  | Except.error _ => Except.ok none
  | r => r

/-! ## Exception handler (joybox/core/exceptions.py) -/

/-- Whether `pat` occurs as a contiguous sublist. -/
def hasSubList (pat : List Char) : List Char → Bool
  | [] => pat.isEmpty
  | c :: cs => pat.isPrefixOf (c :: cs) || hasSubList pat cs

/-- Python `pat in s` (substring containment). -/
def containsSub (s pat : String) : Bool :=
  hasSubList pat.toList s.toList

/-- Embedding of `HTTP_STATUS_MESSAGES` from `exceptions.py`, verbatim. -/
def HTTP_STATUS_MESSAGES : List (Nat × String) :=
  [ (400, "Некорректный запрос.")
  , (401, "Необходима авторизация.")
  , (403, "Доступ запрещён.")
  , (404, "Ресурс не найден.")
  , (405, "Метод не поддерживается.")
  , (406, "Формат ответа не поддерживается.")
  , (409, "Конфликт данных.")
  , (415, "Неподдерживаемый тип данных.")
  , (429, "Слишком много запросов. Попробуйте позже.")
  , (500, "Внутренняя ошибка сервера. Попробуйте позже.")
  ]

/-- Embedding of `ENGLISH_TO_RUSSIAN` from `exceptions.py`, verbatim, in insertion
order (Python dict iteration order). -/
def ENGLISH_TO_RUSSIAN : List (String × String) :=
  [ ("This field is required.", "Это поле обязательно для заполнения.")
  , ("This field may not be blank.", "Это поле не может быть пустым.")
  , ("This field may not be null.", "Это поле не может быть пустым.")
  , ("Invalid pk", "Указанный объект не найден.")
  , ("Ensure this field has no more than", "Превышена максимальная длина поля.")
  , ("Ensure this field has at least", "Слишком короткое значение поля.")
  , ("A valid integer is required.", "Требуется целое число.")
  , ("A valid number is required.", "Требуется число.")
  , ("Enter a valid email address.", "Введите корректный email-адрес.")
  , ("This password is too short.", "Пароль слишком короткий.")
  , ("This password is too common.", "Пароль слишком простой.")
  , ("This password is entirely numeric.", "Пароль не может состоять только из цифр.")
  , ("Unable to log in with provided credentials.", "Неверный email или пароль.")
  , ("User account is disabled.", "Аккаунт заблокирован.")
  , ("Invalid token.", "Недействительный токен авторизации.")
  , ("Token has expired.", "Токен авторизации истёк. Войдите заново.")
  , ("Not found.", "Ресурс не найден.")
  , ("Authentication credentials were not provided.", "Необходима авторизация. Войдите в аккаунт.")
  , ("You do not have permission to perform this action.", "У вас нет прав для выполнения этого действия.")
  , ("Method \"\x7bmethod\x7d\" not allowed.", "Метод не поддерживается.")
  ]

/-- Embedding of `FIELD_NAMES_RU` from `exceptions.py`, verbatim. -/
def FIELD_NAMES_RU : List (String × String) :=
  [ ("email", "Email"), ("password", "Пароль"), ("confirmPassword", "Подтверждение пароля")
  , ("firstName", "Имя"), ("lastName", "Фамилия"), ("middleName", "Отчество")
  , ("phone", "Телефон"), ("birthDate", "Дата рождения"), ("productName", "Название товара")
  , ("productDescription", "Описание товара"), ("price", "Цена"), ("quantity", "Количество")
  , ("ageRating", "Возрастной рейтинг"), ("categoryId", "Категория"), ("brandId", "Бренд")
  , ("categoryName", "Название категории"), ("categoryDescription", "Описание категории")
  , ("brandName", "Название бренда"), ("brandCountry", "Страна бренда")
  , ("brandDescription", "Описание бренда"), ("city", "Город"), ("street", "Улица")
  , ("house", "Дом"), ("flat", "Квартира"), ("index", "Индекс"), ("rating", "Оценка")
  , ("comment", "Комментарий"), ("roleId", "Роль"), ("non_field_errors", "Ошибка")
  , ("detail", "Ошибка")
  ]

/-- Embedding of `_translate_message`: exact lookup in `ENGLISH_TO_RUSSIAN`, then first
partial (substring) match in insertion order, else the message unchanged. -/
def translateMessage (msg : String) : String :=
  match ENGLISH_TO_RUSSIAN.lookup msg with
  | some rus => rus
  | none =>
      match ENGLISH_TO_RUSSIAN.find? (fun p => containsSub msg p.1) with
      | some p => p.2
      | none => msg

/-- A DRF error-detail value: a string, a list, or a dict (field → errors).
Mirrors the shapes `_flatten_errors` dispatches on. -/
inductive ErrDetail where
  | str : String → ErrDetail
  | list : List ErrDetail → ErrDetail
  | dict : List (String × ErrDetail) → ErrDetail

mutual

/-- Python `str()` of an error-detail value.  For strings it is the
string itself (the only case the data ever hits in DRF); containers are
rendered in a simplified bracketed form. -/
def strOfDetail : ErrDetail → String
  | ErrDetail.str s => s
  | ErrDetail.list items => "[" ++ strOfDetailList items ++ "]"
  | ErrDetail.dict fields => "\x7b" ++ strOfDetailDict fields ++ "\x7d"

/-- Comma-separated rendering of a list of detail values. -/
def strOfDetailList : List ErrDetail → String
  | [] => ""
  | [x] => strOfDetail x
  | x :: y :: rest => strOfDetail x ++ ", " ++ strOfDetailList (y :: rest)

/-- Comma-separated rendering of the entries of a detail dict. -/
def strOfDetailDict : List (String × ErrDetail) → String
  | [] => ""
  | [(k, v)] => k ++ ": " ++ strOfDetail v
  | (k, v) :: y :: rest => k ++ ": " ++ strOfDetail v ++ ", " ++ strOfDetailDict (y :: rest)

end

/-- Embedding of `FIELD_NAMES_RU.get(parent_key, parent_key)`. -/
def fieldLabel (k : String) : String := (FIELD_NAMES_RU.lookup k).getD k

mutual

/-- Embedding of `_flatten_errors(errors, parent_key)` from `exceptions.py`. -/
def flattenErrors : ErrDetail → String → List String
  | ErrDetail.str s, _ => [translateMessage s]
  | ErrDetail.list items, parentKey => flattenListItems items parentKey
  | ErrDetail.dict fields, _ => flattenDictItems fields

/-- The `for item in errors` loop of the list branch: dict items recurse
with the same parent key; other items are stringified, translated and
prefixed with the (russified) field name when a parent key is present. -/
def flattenListItems : List ErrDetail → String → List String
  | [], _ => []
  | item :: rest, parentKey =>
      (match item with
       | ErrDetail.dict fields => flattenDictItems fields
       | it =>
           let translated := translateMessage (strOfDetail it)
           if parentKey ≠ "" then [fieldLabel parentKey ++ ": " ++ translated]
           else [translated])
      ++ flattenListItems rest parentKey

/-- The `for key, value in errors.items()` loop of the dict branch:
`non_field_errors` and `detail` recurse with an empty parent key, other
keys with themselves as parent key. -/
def flattenDictItems : List (String × ErrDetail) → List String
  | [] => []
  | (k, v) :: rest =>
      (if k = "non_field_errors" ∨ k = "detail" then flattenErrors v ""
       else flattenErrors v k)
      ++ flattenDictItems rest

end

/-- The uniform response body produced by the handler: exactly the two
keys `detail` and `code` (both strings) plus the HTTP status. -/
structure HandlerResponse where
  status : Nat
  detail : String
  code : String
deriving DecidableEq

/-- An exception as `custom_exception_handler` receives it.
`handled` is any exception for which the standard DRF
`exception_handler` returns a response; it carries the status of that
response, the `default_code` attribute of the exception (`none` when absent),
and the response data.  The remaining constructors are the exceptions
the standard handler passes through as `None`. -/
inductive Exc where
  | handled : Nat → Option String → ErrDetail → Exc
  | djangoValidation : ErrDetail → Exc
  | integrity : String → Exc
  | http404 : Exc
  | other : String → Exc

/-- The conversion at the top of `custom_exception_handler`: a Django
`ValidationError` becomes a DRF `ValidationError` (status 400, default
code `invalid`); a bare-string detail is wrapped into a list by DRF. -/
def normalizeExc : Exc → Exc
  | Exc.djangoValidation (ErrDetail.dict fields) =>
      Exc.handled 400 (some "invalid") (ErrDetail.dict fields)
  | Exc.djangoValidation (ErrDetail.list items) =>
      Exc.handled 400 (some "invalid") (ErrDetail.list items)
  | Exc.djangoValidation (ErrDetail.str s) =>
      Exc.handled 400 (some "invalid") (ErrDetail.list [ErrDetail.str s])
  | e => e

/-- The `response is not None` branch of `custom_exception_handler`:
keep the status, set `code` from `default_code` (falling back to
`error`), and build the detail message from the response data. -/
def drfBranch (status : Nat) (defaultCode : Option String) (data : ErrDetail) :
    HandlerResponse :=
  let fallback := (HTTP_STATUS_MESSAGES.lookup status).getD "Произошла ошибка."
  let msg :=
    match data with
    | ErrDetail.dict fields =>
        if fields.length = 1 ∧ (fields.lookup "detail").isSome then
          translateMessage (strOfDetail ((fields.lookup "detail").getD (ErrDetail.str "")))
        else
          let flat := flattenErrors (ErrDetail.dict fields) ""
          if flat ≠ [] then String.intercalate "; " flat else fallback
    | ErrDetail.list items =>
        let flat := flattenErrors (ErrDetail.list items) ""
        if flat ≠ [] then String.intercalate "; " flat else fallback
    | ErrDetail.str s => translateMessage s
  ⟨status, msg, defaultCode.getD "error"⟩

/-- The `IntegrityError` detail selection: substring tests on the
lowercased error text. -/
def integrityDetailLow (low : String) : String :=
  if containsSub low "unique" ∨ containsSub low "duplicate" then
    "Запись с такими данными уже существует."
  else if containsSub low "foreign key" ∨ containsSub low "violates foreign key" then
    "Невозможно выполнить операцию: связанные данные не найдены."
  else if containsSub low "not-null" ∨ containsSub low "null value" then
    "Не заполнено обязательное поле."
  else if containsSub low "check" then
    "Данные не прошли проверку ограничений."
  else "Ошибка целостности данных."

/-- The `IntegrityError` detail: the branch chain applied to the
lowercased error message. -/
def integrityDetail (msg : String) : String :=
  integrityDetailLow (String.mk (msg.toList.map pyLower))

/-- Embedding of `custom_exception_handler` from `exceptions.py`.  Total: every
exception yields a `HandlerResponse` (the Python function never
returns `None`). -/
def custom_exception_handler (exc : Exc) : HandlerResponse :=
  match normalizeExc exc with
  | Exc.handled st code data => drfBranch st code data
  | Exc.djangoValidation d => drfBranch 400 (some "invalid") d
  | Exc.integrity m => ⟨400, integrityDetail m, "integrity_error"⟩
  | Exc.http404 => ⟨404, "Запрашиваемый ресурс не найден.", "not_found"⟩
  | Exc.other _ => ⟨500, "Внутренняя ошибка сервера. Попробуйте позже.", "server_error"⟩

/-! ## Analytics export responses (joybox/core/views.py)

`AdminAnalyticsSalesView._create_export_response` and
`AdminAnalyticsExportView._create_response` / `_create_csv_response` /
`_create_excel_response`.  A data row is a dict with ordered keys; cell
values are modelled as the strings/numbers written into the file. -/

/-- One report row: an ordered dict from column name to cell value. -/
def ReportRow := List (String × String)

/-- Embedding of `row_data[header]`, with the shared keys the code relies on. -/
def rowCell (row : ReportRow) (h : String) : String :=
  ((List.lookup h row : Option String)).getD ""

/-- The file handed back by an export endpoint: its content type and its
grid of cells (one header row, then one row per record). -/
structure ExportFile where
  isXlsx : Bool
  contentType : String
  header : List String
  dataRows : List (List String)
deriving DecidableEq

def XLSX_CONTENT_TYPE : String :=
  "application/vnd.openxmlformats-officedocument.spreadsheetml.sheet"

def CSV_CONTENT_TYPE : String := "text/csv; charset=utf-8-sig"

/-- Embedding of the empty-report default: a single placeholder row. -/
def defaultRows (rows : List ReportRow) : List ReportRow :=
  if rows.isEmpty then [[("Нет данных", "")]] else rows

/-- The grid both writers produce: the keys of the first row as header,
then the cells of each row in header order. -/
def exportGrid (rows : List ReportRow) : List String × List (List String) :=
  match rows with
  | [] => ([], [])
  | first :: _ =>
      let headers := first.map Prod.fst
      (headers, rows.map (fun r => headers.map (rowCell r)))

/-- Embedding of `_create_csv_response`: CSV, utf-8-sig encoded. -/
def createCsvResponse (rows : List ReportRow) : ExportFile :=
  let g := exportGrid rows
  ⟨false, CSV_CONTENT_TYPE, g.1, g.2⟩

/-- The XLSX writer body shared by both views: header row styled, then
the data rows. -/
def createXlsxFile (rows : List ReportRow) : ExportFile :=
  let g := exportGrid rows
  ⟨true, XLSX_CONTENT_TYPE, g.1, g.2⟩

/-- Embedding of `AdminAnalyticsSalesView._create_export_response`: XLSX exactly when
`excel` is requested and the module-level `OPENPYXL_AVAILABLE` flag is
set, CSV otherwise. -/
def salesCreateExportResponse (rows : List ReportRow) (fmt : String)
    (openpyxlAvailable : Bool) : ExportFile :=
  let rows := defaultRows rows
  if fmt = "excel" ∧ openpyxlAvailable then createXlsxFile rows
  else createCsvResponse rows

/-- Embedding of `AdminAnalyticsExportView._create_excel_response`: tries to import
openpyxl inside the method and falls back to CSV on `ImportError`. -/
def createExcelResponse (rows : List ReportRow) (openpyxlAvailable : Bool) :
    ExportFile :=
  if openpyxlAvailable then createXlsxFile rows else createCsvResponse rows

/-- Embedding of `AdminAnalyticsExportView._create_response`. -/
def analyticsCreateResponse (rows : List ReportRow) (fmt : String)
    (openpyxlAvailable : Bool) : ExportFile :=
  let rows := defaultRows rows
  if fmt = "excel" then createExcelResponse rows openpyxlAvailable
  else createCsvResponse rows

/-! ## Checkout, cancellation and payment (joybox/core/views.py)

`CreateOrderView.post`, `UserOrderCancelView.post` and
`PaymentProcessView.post`, with every database interaction the code
performs recorded in an explicit effect trace.  The stored procedures
are opaque: their outcome is an environment parameter.  `transaction.atomic`
is modelled by discarding the trace of a failing transaction body
(PostgreSQL rolls it back). -/

/-- A database interaction performed by application code.  The
constructors cover the writes and locks the order/payment code paths
could perform; direct mutation of order lines, stock or the cart would
show up as `createOrder` / `createOrderItem` / `updateProductStock` /
`deleteCartLine`. -/
inductive DbEffect where
  | setAuditUser : Int → DbEffect
  | createAddress : Int → DbEffect
  | createOrder : DbEffect
  | createOrderItem : DbEffect
  | updateProductStock : DbEffect
  | deleteCartLine : DbEffect
  | updateOrderPaymentStatus : DbEffect
  | selectForUpdate : String → DbEffect
  | callProcedure : String → DbEffect
deriving DecidableEq

/-- One line of the cart of the buyer, with the product data that
`select_related` pulls in. -/
structure CartLine where
  quantity : Int
  productStock : Int
  productName : String
deriving DecidableEq

inductive DeliveryType where
  | pickup | point | courier
deriving DecidableEq

/-- An `Address` row as referenced by `addressId` in the request
(already validated by the serializer to exist). -/
structure AddressRef where
  addressId : Nat
  ownerId : Int
deriving DecidableEq

structure NewAddress where
  city : String
  street : String
  house : String
  flat : Option String
  index : String
deriving DecidableEq

/-- Embedding of `serializer.validated_data` of `CheckoutCreateSerializer`. -/
structure CheckoutData where
  deliveryType : DeliveryType
  addressId : Option AddressRef
  newAddress : Option NewAddress
  paymentType : String
deriving DecidableEq

/-- The environment of one `CreateOrderView.post` request: the request
user, the cart as read, the validated payload, and the outcome of the
opaque stored procedure `sp_create_order_from_cart`. -/
structure CheckoutEnv where
  isBuyer : Bool
  dataValid : Bool
  userId : Int
  cart : List CartLine
  data : CheckoutData
  spCreateResult : Except String Unit

/-- The body of the `with transaction.atomic():` block of
`CreateOrderView.post`: audit user, address resolution (with the
ownership check), then the raw `CALL sp_create_order_from_cart`. -/
def checkoutBody (env : CheckoutEnv) : Except String (List DbEffect) := do
  -- address resolution: reusing an existing address creates no row
  let addrEffs ←
    match env.data.deliveryType with
    | DeliveryType.pickup => Except.ok [DbEffect.createAddress env.userId]
    | _ =>
        match env.data.addressId with
        | some a =>
            if a.ownerId ≠ env.userId then Except.error "Указан чужой адрес."
            else Except.ok ([] : List DbEffect)
        | none =>
            match env.data.newAddress with
            | some _ => Except.ok [DbEffect.createAddress env.userId]
            | none => Except.error "KeyError: newAddress"
  match env.spCreateResult with
  | Except.error e => Except.error e
  | Except.ok _ =>
      Except.ok (DbEffect.setAuditUser env.userId :: addrEffs ++
        [DbEffect.callProcedure "sp_create_order_from_cart"])

/-- Embedding of `CreateOrderView.post`: buyer gate, serializer validation, the two
stock validations, then the transaction.  Returns the HTTP status and
the committed effect trace. -/
def createOrderPost (env : CheckoutEnv) : Nat × List DbEffect :=
  if ¬ env.isBuyer then (403, [])
  else if ¬ env.dataValid then (400, [])
  else if env.cart.isEmpty then (400, [])
  else if env.cart.any (fun l => l.quantity > l.productStock) then (400, [])
  else
    match checkoutBody env with
    | Except.ok effs => (201, effs)
    | Except.error _ => (400, [])

/-- The environment of one `UserOrderCancelView.post` request. -/
structure CancelEnv where
  isBuyer : Bool
  orderFound : Bool
  userId : Int
  spCancelResult : Except String Unit

/-- The status the except-chain of `UserOrderCancelView.post` derives
from the stored-procedure error text. -/
def cancelErrorStatus (msg : String) : Nat :=
  if containsSub msg "уже отменён" then 400
  else if containsSub msg "Нельзя отменить" ∨ containsSub msg "доставленный" then 400
  else if containsSub msg "не найден" then 404
  else 500

/-- Embedding of `UserOrderCancelView.post`: ownership lookup (404 when the order is
not owned by the buyer), then audit user and the raw `CALL sp_cancel_order`
inside `transaction.atomic`. -/
def cancelOrderPost (env : CancelEnv) : Nat × List DbEffect :=
  if ¬ env.isBuyer ∨ ¬ env.orderFound then (404, [])
  else
    match env.spCancelResult with
    | Except.ok _ =>
        (200, [DbEffect.setAuditUser env.userId, DbEffect.callProcedure "sp_cancel_order"])
    | Except.error msg => (cancelErrorStatus msg, [])

/-- The environment of one `PaymentProcessView.post` request. -/
structure PaymentEnv where
  isBuyer : Bool
  dataValid : Bool
  orderFound : Bool
  paymentStatusPending : Bool
  paymentTypeOnline : Bool
deriving DecidableEq

/-- Embedding of `PaymentProcessView.post`: the `select_for_update` row lock on the
order, the two guards (each returns from inside the atomic block, so
the lock has been taken), then the paymentStatus write. -/
def paymentProcessPost (env : PaymentEnv) : Nat × List DbEffect :=
  if ¬ env.isBuyer then (403, [])
  else if ¬ env.dataValid then (400, [])
  else if ¬ env.orderFound then (404, [])
  else if ¬ env.paymentStatusPending then (400, [DbEffect.selectForUpdate "order"])
  else if ¬ env.paymentTypeOnline then (400, [DbEffect.selectForUpdate "order"])
  else (200, [DbEffect.selectForUpdate "order", DbEffect.updateOrderPaymentStatus])

/-! ## Table export / import (joybox/core/views.py)

`AdminDataExportView.get` (CSV branch) and `AdminDataImportView.post`,
over the three tables present in both `EXPORT_TABLE_CONFIG` and
`IMPORT_TABLE_CONFIG` (`product`, `category`, `brand`).

A record is its primary key plus its non-key fields, keyed by the CSV
column names (the export `headers` and the import `fields_map` keys
coincide; the renaming to the ORM attribute names — e.g. `categoryId` ↔
`categoryId_id` — is a bijection the configs invert, so the CSV names are
used as the canonical field keys).  A field value is `Option String`:
`none` is SQL `NULL` / the model default, `some s` the stringified cell.
The CSV layer (`csv.writer` with `QUOTE_ALL` / `csv.DictReader`) is the
Python standard library and round-trips cell strings exactly; a file is
therefore modelled as its grid of cells. -/

structure TableRecord where
  pk : Nat
  fields : List (String × Option String)
deriving DecidableEq

/-- The per-table configuration, combining `EXPORT_TABLE_CONFIG` (pk
header plus `cols` as the exported columns) and `IMPORT_TABLE_CONFIG`
(`cols` as the `fields_map` keys, `required`). -/
structure TableConfig where
  pkHeader : String
  cols : List String
  required : List String
deriving DecidableEq

def productConfig : TableConfig :=
  ⟨"productId"
  , ["productName", "productDescription", "categoryId", "brandId", "price",
     "ageRating", "quantity", "weightKg", "dimensions"]
  , ["productName", "categoryId", "brandId", "price"]⟩

def categoryConfig : TableConfig :=
  ⟨"categoryId", ["categoryName", "categoryDescription"], ["categoryName"]⟩

def brandConfig : TableConfig :=
  ⟨"brandId", ["brandName", "brandDescription", "brandCountry"], ["brandName"]⟩

/-- The value of a record for a CSV column. -/
def fieldVal (r : TableRecord) (c : String) : Option String :=
  (r.fields.lookup c).getD none

/-- The CSV cell for a value: `None` exports as the empty string, other
values as their string form. -/
def exportCell : Option String → String
  | none => ""
  | some s => s

/-- One exported CSV data row: the primary key, then the configured
columns in order. -/
def exportRow (cfg : TableConfig) (r : TableRecord) : List String :=
  toString r.pk :: cfg.cols.map (fun c => exportCell (fieldVal r c))

/-- Embedding of `queryset.order_by(model._meta.pk.name)`: insertion into a
pk-sorted list. -/
def insertByPk (r : TableRecord) : List TableRecord → List TableRecord
  | [] => [r]
  | x :: xs => if r.pk ≤ x.pk then r :: x :: xs else x :: insertByPk r xs

def sortByPk : List TableRecord → List TableRecord
  | [] => []
  | x :: xs => insertByPk x (sortByPk xs)

/-- A CSV file as its grid: the header row and the data rows. -/
structure CsvFile where
  headers : List String
  rows : List (List String)
deriving DecidableEq

/-- Embedding of `AdminDataExportView.get`, CSV branch: header row, then one row per
record in primary-key order. -/
def exportCsv (cfg : TableConfig) (tbl : List TableRecord) : CsvFile :=
  ⟨cfg.pkHeader :: cfg.cols, (sortByPk tbl).map (exportRow cfg)⟩

/-- The result of an import: the created records and the reported
errors, each error abstracted to its CSV line number and the list of
empty required columns (the code formats these into a message string). -/
structure ImportResult where
  created : List TableRecord
  errors : List (Nat × List String)
deriving DecidableEq

/-- Embedding of `csv.DictReader`: a data row as a dict keyed by the header row. -/
def rowDict (headers cells : List String) : List (String × String) :=
  List.zip headers cells

/-- Python `str.strip()`: drop leading and trailing whitespace. -/
def pyStrip (s : String) : String :=
  String.mk (((s.toList.dropWhile Char.isWhitespace).reverse.dropWhile
    Char.isWhitespace).reverse)

/-- The `for i, row in enumerate(reader, start=2)` loop of
`AdminDataImportView.post`: build `obj_data` from the non-empty stripped
cells, skip (and report) rows with an empty required column, otherwise
create a record with a fresh auto-assigned primary key.  `pk` is the
next key the database would assign, `i` the CSV line number. -/
def importRows (cfg : TableConfig) (headers : List String) :
    Nat → Nat → List (List String) → ImportResult
  | _, _, [] => ⟨[], []⟩
  | pk, i, cells :: rest =>
      let dict := rowDict headers cells
      let missing := cfg.required.filter
        (fun f => (pyStrip ((dict.lookup f).getD "") = ""))
      if missing ≠ [] then
        let res := importRows cfg headers pk (i + 1) rest
        ⟨res.created, (i, missing) :: res.errors⟩
      else
        let fields := cfg.cols.map (fun c => (c,
          match dict.lookup c with
          | some v => if pyStrip v = "" then none else some (pyStrip v)
          | none => none))
        let res := importRows cfg headers (pk + 1) (i + 1) rest
        ⟨⟨pk, fields⟩ :: res.created, res.errors⟩

/-- Embedding of `AdminDataImportView.post` for a parsed CSV file: the
missing-required-columns check on the header, then the row loop.
`nextPk` is the next primary key the database sequence would assign. -/
def importCsv (cfg : TableConfig) (nextPk : Nat) (file : CsvFile) :
    Except String ImportResult :=
  let missingRequired := cfg.required.filter (fun f => ¬ file.headers.contains f)
  if missingRequired ≠ [] then
    Except.error "В CSV отсутствуют обязательные столбцы."
  else Except.ok (importRows cfg file.headers nextPk 2 file.rows)

/-- Normalisation a field value undergoes in an export / import round
trip: stringified, then stripped; an empty (or whitespace-only) cell is
omitted from `obj_data`, leaving the model default. -/
def normalizeField (v : Option String) : Option String :=
  let s := pyStrip (exportCell v)
  if s = "" then none else some s

/-- Whether an exported record passes the required-column
check: every required column nonempty after stripping. -/
def requiredOk (cfg : TableConfig) (r : TableRecord) : Bool :=
  cfg.required.all (fun f => (normalizeField (fieldVal r f)).isSome)

/-- The records the round trip should create: consecutive fresh primary
keys from `nextPk`, fields normalised. -/
def assignPks (pk : Nat) : List (List (String × Option String)) → List TableRecord
  | [] => []
  | f :: fs => ⟨pk, f⟩ :: assignPks (pk + 1) fs

/-- The normalised image of an exported record. -/
def roundTripFields (cfg : TableConfig) (r : TableRecord) :
    List (String × Option String) :=
  cfg.cols.map (fun c => (c, normalizeField (fieldVal r c)))

/-- The errors the round trip should report: one entry per record whose
required columns do not survive normalisation, with its CSV line
number (`i` is the line of the first record). -/
def errorSpec (cfg : TableConfig) : Nat → List TableRecord → List (Nat × List String)
  | _, [] => []
  | i, r :: rest =>
      if requiredOk cfg r then errorSpec cfg (i + 1) rest
      else (i, cfg.required.filter (fun f => (normalizeField (fieldVal r f)).isNone)) ::
        errorSpec cfg (i + 1) rest

/-! ## Theorems -/

/-- Truncating to the first `n` code points yields at most `n`. -/
theorem pyTruncate_length_le (n : Nat) (s : String) : (pyTruncate n s).length ≤ n := by
  simp only [pyTruncate, String.length, String.mk]
  exact List.length_take_le n s.toList

/-- C7: every model of the relational schema — exactly the sixteen
listed — is declared unmanaged (`Meta.managed = False`) and mapped to a
pre-existing table via an explicit `db_table` name. -/
theorem models_unmanaged_with_db_table :
    joyboxModels.map ModelMeta.name =
      ["Role", "User", "Category", "Brand", "Product", "ProductImage",
       "ProductAttribute", "Address", "OrderStatus", "Order", "OrderItem",
       "Review", "Wishlist", "Cart", "ParentChild", "AuditLog"] ∧
    ∀ m ∈ joyboxModels, m.managed = false ∧ m.dbTable.isSome := by decide

/-- C7 witness: the theorem applied to a concrete model of the list. -/
theorem models_unmanaged_witness :
    (⟨"Order", false, some "order"⟩ : ModelMeta).managed = false ∧
    (⟨"Order", false, some "order"⟩ : ModelMeta).dbTable.isSome :=
  models_unmanaged_with_db_table.2 ⟨"Order", false, some "order"⟩ (by decide)

/-- C10: `log_audit` is total (every error is swallowed, so it always
returns `ok`), writes nothing when the user is `None`, has no id, or
`record_id` is `None`, and truncates `action` and `tableName` to at
most 100 characters when it does write. -/
theorem log_audit_spec (user : Option AuditUser) (action tableName : Option String)
    (recordId : Option Int) (oldValues newValues : Option String) (createOk : Bool) :
    (∃ r, log_audit user action tableName recordId oldValues newValues createOk =
      Except.ok r) ∧
    (user = none →
      log_audit user action tableName recordId oldValues newValues createOk =
        Except.ok none) ∧
    (∀ u, user = some u → u.userId = none → u.pk = none →
      log_audit user action tableName recordId oldValues newValues createOk =
        Except.ok none) ∧
    (recordId = none →
      log_audit user action tableName recordId oldValues newValues createOk =
        Except.ok none) ∧
    (∀ e, log_audit user action tableName recordId oldValues newValues createOk =
        Except.ok (some e) →
      e.action = pyTruncate 100 (action.getD "") ∧
      e.tableName = pyTruncate 100 (tableName.getD "") ∧
      e.action.length ≤ 100 ∧ e.tableName.length ≤ 100) := by
  refine ⟨?_, ?_, ?_, ?_, ?_⟩
  · cases h : logAuditBody user action tableName recordId oldValues newValues createOk with
    | error e => exact ⟨none, by simp [log_audit, h]⟩
    | ok r => exact ⟨r, by simp [log_audit, h]⟩
  · intro h; subst h; simp [log_audit, logAuditBody]
  · intro u hu h1 h2; subst hu
    simp [log_audit, logAuditBody, h1, h2, Option.orElse]
  · intro h; subst h
    cases user with
    | none => simp [log_audit, logAuditBody]
    | some u =>
        cases h : u.userId.orElse fun _ => u.pk with
        | none => simp [log_audit, logAuditBody, h]
        | some uid => simp [log_audit, logAuditBody, h]
  · intro e he
    cases user with
    | none => simp [log_audit, logAuditBody] at he
    | some u =>
        cases h : u.userId.orElse fun _ => u.pk with
        | none => simp [log_audit, logAuditBody, h] at he
        | some uid =>
            cases recordId with
            | none => simp [log_audit, logAuditBody, h] at he
            | some rid =>
                cases createOk with
                | false => simp [log_audit, logAuditBody, h] at he
                | true =>
                    simp [log_audit, logAuditBody, h] at he
                    refine ⟨?_, ?_, ?_, ?_⟩
                    · rw [← he]
                    · rw [← he]
                    · rw [← he]; exact pyTruncate_length_le 100 (action.getD "")
                    · rw [← he]; exact pyTruncate_length_le 100 (tableName.getD "")

/-- C10 witness: `log_audit` at concrete inputs, discharging each
hypothesis of `log_audit_spec`. -/
theorem log_audit_spec_witness :
    log_audit none (some "CREATE") (some "product") (some 5) none none true =
      Except.ok none ∧
    log_audit (some ⟨some 7, some 7⟩) (some "CREATE") (some "product") none none none true =
      Except.ok none ∧
    (∀ e, log_audit (some ⟨some 7, some 7⟩) (some "CREATE") (some "product") (some 5)
        none none true = Except.ok (some e) →
      e.action = pyTruncate 100 "CREATE") := by
  refine ⟨?_, ?_, ?_⟩
  · exact (log_audit_spec none (some "CREATE") (some "product") (some 5) none none
      true).2.1 rfl
  · exact (log_audit_spec (some ⟨some 7, some 7⟩) (some "CREATE") (some "product") none
      none none true).2.2.2.1 rfl
  · intro e he
    exact ((log_audit_spec (some ⟨some 7, some 7⟩) (some "CREATE") (some "product")
      (some 5) none none true).2.2.2.2 e he).1

/-- C9: every successful cart mutation keeps the affected line between 1
and the product stock as read during validation; failed mutations leave
the stored line unchanged; the per-request quantity is capped at 999 but
the merged quantity after repeated adds is only checked against stock. -/
theorem cart_mutations_preserve_invariant (existing : Option Int) (stock qty : Int) :
    -- a failed add leaves the stored line unchanged
    ((cartAdd existing stock qty).2.isSome →
      (cartAdd existing stock qty).1 = existing) ∧
    -- a successful add stores a line with 1 ≤ quantity ≤ stock
    ((∀ x, existing = some x → 1 ≤ x) →
      ∀ q, cartAdd existing stock qty = (some q, none) → 1 ≤ q ∧ q ≤ stock) ∧
    -- a request over stock, or a merge over stock, fails
    (qty > stock → (cartAdd existing stock qty).2.isSome) ∧
    (∀ e, existing = some e → e + qty > stock → (cartAdd existing stock qty).2.isSome) ∧
    -- the per-request quantity is capped at 999 (and must be positive)
    (qty > 999 ∨ qty < 1 → (cartAdd existing stock qty).2.isSome) ∧
    -- but a merged quantity over 999 is accepted as long as it fits the stock
    (∀ e, existing = some e → 1 ≤ e → 1 ≤ qty → qty ≤ 999 → e + qty ≤ stock →
      cartAdd existing stock qty = (some (e + qty), none)) ∧
    -- the update analogues
    (∀ e, ((cartUpdate e stock qty).2.isSome → (cartUpdate e stock qty).1 = e) ∧
      (∀ q, cartUpdate e stock qty = (q, none) → 1 ≤ q ∧ q ≤ stock) ∧
      (qty > stock → (cartUpdate e stock qty).2.isSome)) := by
  unfold cartAdd cartUpdate
  refine ⟨?_, ?_, ?_, ?_, ?_, ?_, ?_⟩
  · cases existing <;> split_ifs <;> simp_all <;> split_ifs <;> simp_all
  · intro hx q hq
    cases existing with
    | none => split_ifs at hq <;> simp_all <;> omega
    | some e =>
        have he : 1 ≤ e := hx e rfl
        split_ifs at hq <;> simp_all
        split_ifs at hq <;> simp_all <;> omega
  · intro h
    cases existing <;> split_ifs <;> simp_all <;> split_ifs <;> simp_all <;> omega
  · intro e he h; subst he
    split_ifs <;> simp_all <;> split_ifs <;> simp_all <;> omega
  · intro h
    cases existing <;> split_ifs <;> (try simp_all) <;>
      (try split_ifs <;> simp_all) <;> omega
  · intro e he h0 h1 h2 h3; subst he
    split_ifs <;> (try simp_all) <;> (try split_ifs <;> simp_all) <;> omega
  · intro e
    refine ⟨?_, ?_, ?_⟩
    · split_ifs <;> simp_all
    · intro q hq; split_ifs at hq <;> simp_all <;> omega
    · intro h; split_ifs <;> simp_all <;> omega

/-- C9 witness: concrete cart mutations exercising each hypothesis —
in particular a merge to 1200 > 999 that is accepted because it still
fits the stock. -/
theorem cart_mutations_witness :
    cartAdd (some 600) 2000 600 = (some 1200, none) ∧
    (cartAdd (some 4) 5 3).2.isSome ∧
    (cartAdd none 5 7).2.isSome ∧
    (cartAdd none 5000 1000).2.isSome ∧
    cartUpdate 2 5 9 = (2, some "На складе доступно меньше.") := by
  refine ⟨?_, ?_, ?_, ?_, ?_⟩
  · exact (cart_mutations_preserve_invariant (some 600) 2000 600).2.2.2.2.2.1 600 rfl
      (by decide) (by decide) (by decide) (by decide)
  · exact (cart_mutations_preserve_invariant (some 4) 5 3).2.2.2.1 4 rfl (by decide)
  · exact (cart_mutations_preserve_invariant none 5 7).2.2.1 (by decide)
  · exact (cart_mutations_preserve_invariant none 5000 1000).2.2.2.2.1 (Or.inl (by decide))
  · decide

/-- C8: review creation and update accept a rating only in 1..5 and
reject profane review text; `contains_profanity` is `False` on `None`,
empty or whitespace-only text, and is `True` exactly when some token of
the normalised text equals a word of `PROFANITY_WORDS` — so a profane
word embedded inside a longer token is not detected. -/
theorem review_validation_spec (rating : Int) (t : String) :
    (reviewInputValid rating none = true ↔ (1 ≤ rating ∧ rating ≤ 5)) ∧
    (reviewInputValid rating (some t) = true ↔
      (1 ≤ rating ∧ rating ≤ 5 ∧
        (t.isEmpty = true ∨ contains_profanity (some t) = false))) ∧
    contains_profanity none = false ∧
    contains_profanity (some "") = false ∧
    (t.toList.all Char.isWhitespace = true → contains_profanity (some t) = false) ∧
    (contains_profanity (some t) = true ↔
      (¬ (t.isEmpty = true ∨ t.toList.all Char.isWhitespace = true) ∧
        ∃ w ∈ findTokens (normalizeText t) [], w ∈ PROFANITY_WORDS)) ∧
    ((∀ w ∈ findTokens (normalizeText t) [], w ∉ PROFANITY_WORDS) →
      contains_profanity (some t) = false) := by
  refine ⟨?_, ?_, rfl, by decide, ?_, ?_, ?_⟩
  · simp [reviewInputValid, validRating]
  · by_cases hE : t.isEmpty <;> by_cases hP : contains_profanity (some t) <;>
      simp [reviewInputValid, validRating, validateReviewText, Except.isOk, hE, hP] <;>
      tauto
  · intro h
    simp only [contains_profanity]
    split_ifs with hc
    · rfl
    · exact absurd (Or.inr h) hc
  · simp only [contains_profanity]
    by_cases h : t.isEmpty ∨ t.toList.all Char.isWhitespace
    · rcases h with h | h <;> simp [h, List.any_eq_true]
    · push_neg at h
      simp [h.1, h.2, List.any_eq_true]
  · intro h
    simp only [contains_profanity]
    split_ifs with hc
    · rfl
    · simp only [List.any_eq_false]
      intro w hw
      simpa using h w hw

/-- C8 witness: concrete review inputs — rating 3 with clean text
accepted, rating 6 rejected, a profane token detected, and the word
`бля` embedded inside the longer token `коробля` not detected even
though it occurs as a substring. -/
theorem review_validation_witness :
    reviewInputValid 3 (some "Отличный мяч") = true ∧
    reviewInputValid 6 none = false ∧
    contains_profanity (some "ну бля даёт") = true ∧
    (contains_profanity (some "коробля") = false ∧
      containsSub "коробля" "бля" = true) ∧
    contains_profanity (some "   ") = false := by
  refine ⟨?_, ?_, by decide, ⟨?_, by decide⟩, ?_⟩
  · exact (review_validation_spec 3 "Отличный мяч").2.1.mpr
      ⟨by decide, by decide, Or.inr (by decide)⟩
  · have h := (review_validation_spec 6 "x").1
    by_contra hc
    have := h.mp (by simpa using hc)
    omega
  · exact (review_validation_spec 1 "коробля").2.2.2.2.2.2 (by decide)
  · exact (review_validation_spec 1 "   ").2.2.2.2.1 (by decide)

/-- C4: `custom_exception_handler` always produces a `{detail, code}`
body (it is total — the Python function never returns `None` — and
`HandlerResponse` is exactly the two string keys plus the status):
exceptions handled by the standard DRF handler keep their status and get
their messages flattened, translated and joined with `; `;
`IntegrityError` maps to 400/`integrity_error` with the detail chosen by
substring tests; `Http404` to 404/`not_found`; anything else to
500/`server_error`. -/
theorem custom_handler_spec (exc : Exc) :
    (∀ m, exc = Exc.integrity m →
      (custom_exception_handler exc).status = 400 ∧
      (custom_exception_handler exc).code = "integrity_error" ∧
      (custom_exception_handler exc).detail = integrityDetail m ∧
      (custom_exception_handler exc).detail ∈
        ["Запись с такими данными уже существует.",
         "Невозможно выполнить операцию: связанные данные не найдены.",
         "Не заполнено обязательное поле.",
         "Данные не прошли проверку ограничений.",
         "Ошибка целостности данных."]) ∧
    (exc = Exc.http404 →
      custom_exception_handler exc =
        ⟨404, "Запрашиваемый ресурс не найден.", "not_found"⟩) ∧
    (∀ m, exc = Exc.other m →
      custom_exception_handler exc =
        ⟨500, "Внутренняя ошибка сервера. Попробуйте позже.", "server_error"⟩) ∧
    (∀ st c d, exc = Exc.handled st c d →
      (custom_exception_handler exc).status = st ∧
      (custom_exception_handler exc).code = c.getD "error" ∧
      (∀ s, d = ErrDetail.str s →
        (custom_exception_handler exc).detail = translateMessage s) ∧
      (∀ v, d = ErrDetail.dict [("detail", v)] →
        (custom_exception_handler exc).detail = translateMessage (strOfDetail v)) ∧
      (∀ fields, d = ErrDetail.dict fields →
        ¬ (fields.length = 1 ∧ (fields.lookup "detail").isSome) →
        flattenErrors d "" ≠ [] →
        (custom_exception_handler exc).detail =
          String.intercalate "; " (flattenErrors d "")) ∧
      (∀ items, d = ErrDetail.list items → flattenErrors d "" ≠ [] →
        (custom_exception_handler exc).detail =
          String.intercalate "; " (flattenErrors d ""))) ∧
    (∀ d, exc = Exc.djangoValidation d →
      (custom_exception_handler exc).status = 400 ∧
      (custom_exception_handler exc).code = "invalid") := by
  refine ⟨?_, ?_, ?_, ?_, ?_⟩
  · intro m hm; subst hm
    refine ⟨rfl, rfl, rfl, ?_⟩
    show integrityDetail m ∈ _
    unfold integrityDetail integrityDetailLow
    split_ifs <;> simp
  · intro h; subst h; rfl
  · intro m hm; subst hm; rfl
  · intro st c d hd; subst hd
    refine ⟨rfl, rfl, ?_, ?_, ?_, ?_⟩
    · intro s hs; subst hs; rfl
    · intro v hv; subst hv
      simp [custom_exception_handler, normalizeExc, drfBranch]
    · intro fields hf hsimple hflat; subst hf
      simp only [custom_exception_handler, normalizeExc, drfBranch]
      rw [if_neg hsimple, if_pos hflat]
    · intro items hi hflat; subst hi
      simp only [custom_exception_handler, normalizeExc, drfBranch]
      rw [if_pos hflat]
  · intro d hd; subst hd
    cases d <;> exact ⟨rfl, rfl⟩

/-- C4 witness: the handler at concrete exceptions — a unique-violation
IntegrityError, an Http404, a generic exception, and a DRF validation
error whose field errors are flattened, translated and joined. -/
theorem custom_handler_witness :
    (custom_exception_handler (Exc.integrity "duplicate key value violates unique constraint")).status = 400 ∧
    (custom_exception_handler (Exc.integrity "duplicate key value violates unique constraint")).detail =
      "Запись с такими данными уже существует." ∧
    custom_exception_handler Exc.http404 =
      ⟨404, "Запрашиваемый ресурс не найден.", "not_found"⟩ ∧
    custom_exception_handler (Exc.other "boom") =
      ⟨500, "Внутренняя ошибка сервера. Попробуйте позже.", "server_error"⟩ ∧
    (custom_exception_handler (Exc.handled 400 (some "invalid")
        (ErrDetail.dict [("email", ErrDetail.list [ErrDetail.str "This field is required."]),
                         ("price", ErrDetail.list [ErrDetail.str "A valid number is required."])]))).detail =
      "Email: Это поле обязательно для заполнения.; Цена: Требуется число." := by
  refine ⟨?_, ?_, ?_, ?_, ?_⟩
  · exact ((custom_handler_spec (Exc.integrity "duplicate key value violates unique constraint")).1
      "duplicate key value violates unique constraint" rfl).1
  · have h := ((custom_handler_spec (Exc.integrity "duplicate key value violates unique constraint")).1
      "duplicate key value violates unique constraint" rfl).2.2.1
    rw [h]; decide
  · exact (custom_handler_spec Exc.http404).2.1 rfl
  · exact (custom_handler_spec (Exc.other "boom")).2.2.1 "boom" rfl
  · have h := ((custom_handler_spec (Exc.handled 400 (some "invalid")
        (ErrDetail.dict [("email", ErrDetail.list [ErrDetail.str "This field is required."]),
                         ("price", ErrDetail.list [ErrDetail.str "A valid number is required."])]))).2.2.2.1
        400 (some "invalid") _ rfl).2.2.2.2.1 _ rfl (by decide) (by decide)
    rw [h]; decide

/-- C5: both analytics export endpoints always hand back a file —
XLSX (with its content type) exactly when format `excel` is requested
and openpyxl is importable, CSV (utf-8-sig content type) in every other
case — and in both formats the grid is one header row (the keys of the
first data record) followed by one row per data record. -/
theorem analytics_export_spec (rows : List ReportRow) (fmt : String) (avail : Bool) :
    ∀ f ∈ [salesCreateExportResponse rows fmt avail,
           analyticsCreateResponse rows fmt avail],
      (f.isXlsx = true ↔ (fmt = "excel" ∧ avail = true)) ∧
      (f.isXlsx = true → f.contentType = XLSX_CONTENT_TYPE) ∧
      (f.isXlsx = false → f.contentType = CSV_CONTENT_TYPE) ∧
      f.header = (exportGrid (defaultRows rows)).1 ∧
      f.dataRows = (exportGrid (defaultRows rows)).2 ∧
      f.dataRows.length = (defaultRows rows).length ∧
      (defaultRows rows).length ≠ 0 := by
  have hne0 : defaultRows rows ≠ [] := by
    unfold defaultRows
    split_ifs with h
    · simp
    · simpa [List.isEmpty_iff] using h
  obtain ⟨first, rest, hd⟩ := List.exists_cons_of_ne_nil hne0
  have hlen : (exportGrid (defaultRows rows)).2.length = (defaultRows rows).length := by
    rw [hd]; simp [exportGrid]
  have hne : (defaultRows rows).length ≠ 0 := by
    rw [hd]; simp
  intro f hf
  simp only [List.mem_cons, List.mem_singleton, List.not_mem_nil, or_false] at hf
  rcases hf with hf | hf <;> subst hf <;>
    by_cases hfmt : fmt = "excel" <;> by_cases hav : avail = true <;>
    simp_all [salesCreateExportResponse, analyticsCreateResponse,
      createExcelResponse, createXlsxFile, createCsvResponse, hlen, hne,
      XLSX_CONTENT_TYPE, CSV_CONTENT_TYPE]

/-- C5 witness: a concrete two-row report — XLSX when `excel` is
requested and openpyxl is available, CSV for format `csv` and for
`excel` without openpyxl, with the same grid in every case. -/
theorem analytics_export_witness :
    (salesCreateExportResponse [[("Дата", "2025-01-01"), ("Выручка", "100")],
        [("Дата", "2025-01-02"), ("Выручка", "200")]] "excel" true).isXlsx = true ∧
    (analyticsCreateResponse [[("Дата", "2025-01-01"), ("Выручка", "100")],
        [("Дата", "2025-01-02"), ("Выручка", "200")]] "excel" false).isXlsx = false ∧
    (salesCreateExportResponse [[("Дата", "2025-01-01"), ("Выручка", "100")],
        [("Дата", "2025-01-02"), ("Выручка", "200")]] "csv" true).contentType =
      CSV_CONTENT_TYPE ∧
    (salesCreateExportResponse [[("Дата", "2025-01-01"), ("Выручка", "100")],
        [("Дата", "2025-01-02"), ("Выручка", "200")]] "excel" true).dataRows =
      [["2025-01-01", "100"], ["2025-01-02", "200"]] := by
  refine ⟨?_, ?_, ?_, ?_⟩
  · exact ((analytics_export_spec [[("Дата", "2025-01-01"), ("Выручка", "100")],
        [("Дата", "2025-01-02"), ("Выручка", "200")]] "excel" true)
      (salesCreateExportResponse [[("Дата", "2025-01-01"), ("Выручка", "100")],
        [("Дата", "2025-01-02"), ("Выручка", "200")]] "excel" true)
      (by simp)).1.mpr ⟨rfl, rfl⟩
  · have h := ((analytics_export_spec [[("Дата", "2025-01-01"), ("Выручка", "100")],
        [("Дата", "2025-01-02"), ("Выручка", "200")]] "excel" false)
      (analyticsCreateResponse [[("Дата", "2025-01-01"), ("Выручка", "100")],
        [("Дата", "2025-01-02"), ("Выручка", "200")]] "excel" false)
      (by simp)).1
    by_contra hc
    have := h.mp (by simpa using hc)
    simp at this
  · have h := ((analytics_export_spec [[("Дата", "2025-01-01"), ("Выручка", "100")],
        [("Дата", "2025-01-02"), ("Выручка", "200")]] "csv" true)
      (salesCreateExportResponse [[("Дата", "2025-01-01"), ("Выручка", "100")],
        [("Дата", "2025-01-02"), ("Выручка", "200")]] "csv" true)
      (by simp)).2.2.1
    refine h ?_
    decide
  · have h := ((analytics_export_spec [[("Дата", "2025-01-01"), ("Выручка", "100")],
        [("Дата", "2025-01-02"), ("Выручка", "200")]] "excel" true)
      (salesCreateExportResponse [[("Дата", "2025-01-01"), ("Выручка", "100")],
        [("Дата", "2025-01-02"), ("Выручка", "200")]] "excel" true)
      (by simp)).2.2.2.2.1
    rw [h]; decide

/-- Structure of a successful checkout transaction body: it always
contains the `CALL sp_create_order_from_cart`, and every effect is the
audit-user SET, at most one address INSERT, or that call. -/
theorem checkoutBody_effects (env : CheckoutEnv) (effs : List DbEffect)
    (h : checkoutBody env = Except.ok effs) :
    DbEffect.callProcedure "sp_create_order_from_cart" ∈ effs ∧
    ∀ e ∈ effs, e = DbEffect.setAuditUser env.userId ∨
      e = DbEffect.createAddress env.userId ∨
      e = DbEffect.callProcedure "sp_create_order_from_cart" := by
  unfold checkoutBody at h
  cases hsp : env.spCreateResult with
  | error msg =>
      cases hdt : env.data.deliveryType <;>
        cases haddr : env.data.addressId <;>
        cases hna : env.data.newAddress <;>
        simp_all [Except.bind, bind] <;>
        split_ifs at h <;> simp_all
  | ok u =>
      cases hdt : env.data.deliveryType <;>
        cases haddr : env.data.addressId <;>
        cases hna : env.data.newAddress <;>
        simp_all [Except.bind, bind] <;>
        (try split_ifs at h <;> simp_all) <;>
        (try rw [← h]) <;> simp <;> tauto

/-- Any checkout response other than 201 commits nothing. -/
theorem createOrderPost_not201 (env : CheckoutEnv)
    (h : (createOrderPost env).1 ≠ 201) : (createOrderPost env).2 = [] := by
  unfold createOrderPost at h ⊢
  split_ifs at h ⊢
  all_goals try rfl
  cases hb : checkoutBody env with
  | error e => simp [hb]
  | ok effs => rw [hb] at h; simp at h

/-- A 201 checkout response means every gate passed and the committed
effects are exactly those of the transaction body. -/
theorem createOrderPost_201_spec (env : CheckoutEnv)
    (h : (createOrderPost env).1 = 201) :
    ∃ effs, checkoutBody env = Except.ok effs ∧
      createOrderPost env = (201, effs) ∧
      env.isBuyer = true ∧ env.dataValid = true ∧ env.cart ≠ [] ∧
      ∀ l ∈ env.cart, l.quantity ≤ l.productStock := by
  unfold createOrderPost at h ⊢
  split_ifs at h ⊢ with h1 h2 h3 h4
  all_goals try simp at h
  cases hb : checkoutBody env with
  | error e => rw [hb] at h; simp at h
  | ok effs =>
      refine ⟨effs, rfl, rfl, by simpa using h1, by simpa using h2, ?_, ?_⟩
      · intro hc
        rw [hc] at h3
        simp at h3
      · intro l hl
        by_contra hq
        exact h4 (by
          simp only [List.any_eq_true]
          exact ⟨l, hl, by simpa using (by omega : l.productStock < l.quantity)⟩)

/-- The cancel error chain never answers 200. -/
theorem cancelErrorStatus_ne_200 (msg : String) : cancelErrorStatus msg ≠ 200 := by
  unfold cancelErrorStatus
  split_ifs <;> simp

/-- A cancel request either commits nothing or commits exactly the
audit SET and the `CALL sp_cancel_order`. -/
theorem cancelOrderPost_cases (cenv : CancelEnv) :
    ((cancelOrderPost cenv).1 ≠ 200 ∧ (cancelOrderPost cenv).2 = []) ∨
    cancelOrderPost cenv =
      (200, [DbEffect.setAuditUser cenv.userId,
             DbEffect.callProcedure "sp_cancel_order"]) := by
  unfold cancelOrderPost
  split_ifs
  · left; exact ⟨by simp, rfl⟩
  · cases hsp : cenv.spCancelResult with
    | error msg => left; exact ⟨cancelErrorStatus_ne_200 msg, rfl⟩
    | ok u => right; rfl

/-- C1: checkout validates stock before creating anything — empty cart
or an over-stock cart line yields HTTP 400 with no database effect —
and a created order (201) delegates the whole sequence to
`sp_create_order_from_cart`; cancellation likewise delegates to
`sp_cancel_order`; in both operations the application itself never
mutates order lines, stock or the cart. -/
theorem checkout_validates_then_delegates (env : CheckoutEnv) (cenv : CancelEnv) :
    (env.isBuyer = true → env.dataValid = true → env.cart = [] →
      createOrderPost env = (400, [])) ∧
    (env.isBuyer = true → env.dataValid = true →
      (∃ l ∈ env.cart, l.quantity > l.productStock) →
      createOrderPost env = (400, [])) ∧
    ((createOrderPost env).1 = 201 →
      DbEffect.callProcedure "sp_create_order_from_cart" ∈ (createOrderPost env).2 ∧
      env.cart ≠ [] ∧ ∀ l ∈ env.cart, l.quantity ≤ l.productStock) ∧
    (∀ e ∈ (createOrderPost env).2,
      e ≠ DbEffect.createOrder ∧ e ≠ DbEffect.createOrderItem ∧
      e ≠ DbEffect.updateProductStock ∧ e ≠ DbEffect.deleteCartLine) ∧
    ((cancelOrderPost cenv).1 = 200 →
      DbEffect.callProcedure "sp_cancel_order" ∈ (cancelOrderPost cenv).2) ∧
    (∀ e ∈ (cancelOrderPost cenv).2,
      e ≠ DbEffect.createOrder ∧ e ≠ DbEffect.createOrderItem ∧
      e ≠ DbEffect.updateProductStock ∧ e ≠ DbEffect.deleteCartLine) := by
  refine ⟨?_, ?_, ?_, ?_, ?_, ?_⟩
  · intro hb hv hc
    simp [createOrderPost, hb, hv, hc]
  · intro hb hv ⟨l, hl, hql⟩
    have hany : env.cart.any (fun l => l.quantity > l.productStock) = true := by
      simp only [List.any_eq_true]
      exact ⟨l, hl, by simpa using hql⟩
    have hne : ¬ env.cart.isEmpty := by
      cases hc : env.cart with
      | nil => simp [hc] at hl
      | cons a t => simp [hc]
    simp [createOrderPost, hb, hv, hne, hany]
  · intro h201
    obtain ⟨effs, hb, heq, _, _, hne, hstock⟩ := createOrderPost_201_spec env h201
    rw [heq]
    exact ⟨(checkoutBody_effects env effs hb).1, hne, hstock⟩
  · intro e he
    by_cases h201 : (createOrderPost env).1 = 201
    · obtain ⟨effs, hb, heq, _⟩ := createOrderPost_201_spec env h201
      rw [heq] at he
      rcases (checkoutBody_effects env effs hb).2 e he with h | h | h <;>
        subst h <;> simp
    · rw [createOrderPost_not201 env h201] at he
      simp at he
  · intro h200
    rcases cancelOrderPost_cases cenv with h | h
    · exact absurd h200 h.1
    · rw [h]; simp
  · intro e he
    rcases cancelOrderPost_cases cenv with h | h
    · rw [h.2] at he; simp at he
    · rw [h] at he
      simp only [List.mem_cons, List.mem_singleton, List.not_mem_nil, or_false] at he
      rcases he with h | h <;> subst h <;> simp

/-- A buyer checkout whose only cart line exceeds the stock. -/
def demoOverstockEnv : CheckoutEnv :=
  ⟨true, true, 7, [⟨2, 1, "Мяч"⟩],
   ⟨DeliveryType.pickup, none, none, "онлайн"⟩, Except.ok ()⟩

/-- A buyer checkout that succeeds: one in-stock line, pickup delivery,
stored procedure succeeds. -/
def demoGoodEnv : CheckoutEnv :=
  ⟨true, true, 7, [⟨1, 5, "Мяч"⟩],
   ⟨DeliveryType.pickup, none, none, "онлайн"⟩, Except.ok ()⟩

/-- A cancellable own order whose stored procedure succeeds. -/
def demoCancelEnv : CancelEnv := ⟨true, true, 7, Except.ok ()⟩

/-- C1 witness: the over-stock cart is rejected with 400 and no effect;
the passing cart reaches `sp_create_order_from_cart`; the cancellation
reaches `sp_cancel_order`. -/
theorem checkout_validates_witness :
    createOrderPost demoOverstockEnv = (400, []) ∧
    DbEffect.callProcedure "sp_create_order_from_cart" ∈ (createOrderPost demoGoodEnv).2 ∧
    DbEffect.callProcedure "sp_cancel_order" ∈ (cancelOrderPost demoCancelEnv).2 := by
  refine ⟨?_, ?_, ?_⟩
  · exact (checkout_validates_then_delegates demoOverstockEnv demoCancelEnv).2.1
      rfl rfl ⟨⟨2, 1, "Мяч"⟩, by simp [demoOverstockEnv], by decide⟩
  · exact ((checkout_validates_then_delegates demoGoodEnv demoCancelEnv).2.2.1
      (by decide)).1
  · exact (checkout_validates_then_delegates demoGoodEnv demoCancelEnv).2.2.2.2.1
      (by decide)

/-- Inside the checkout transaction, a failing stored procedure makes
the whole body fail. -/
theorem checkoutBody_sp_error (env : CheckoutEnv) (msg : String)
    (hsp : env.spCreateResult = Except.error msg) :
    ∀ effs, checkoutBody env ≠ Except.ok effs := by
  intro effs hb
  unfold checkoutBody at hb
  rw [hsp] at hb
  cases hdt : env.data.deliveryType <;>
    cases haddr : env.data.addressId <;>
    cases hna : env.data.newAddress <;>
    simp_all [Except.bind, bind] <;>
    split_ifs at hb <;> simp_all

/-- Inside the checkout transaction, a foreign `addressId` raises
before the stored procedure is reached. -/
theorem checkoutBody_foreign_address (env : CheckoutEnv) (a : AddressRef)
    (hdt : env.data.deliveryType ≠ DeliveryType.pickup)
    (ha : env.data.addressId = some a) (hown : a.ownerId ≠ env.userId) :
    ∀ effs, checkoutBody env ≠ Except.ok effs := by
  intro effs hb
  unfold checkoutBody at hb
  rw [ha] at hb
  cases hd : env.data.deliveryType <;> simp_all [Except.bind, bind] <;>
    split_ifs at hb <;> simp_all

/-- C2: checkout is atomic — every response other than 201 commits no
write at all (no address, no order, cart untouched), in particular when
the stored procedure fails or when the ownership check on `addressId`
raises inside the transaction. -/
theorem checkout_atomicity (env : CheckoutEnv) :
    ((createOrderPost env).1 ≠ 201 → (createOrderPost env).2 = []) ∧
    (∀ msg, env.spCreateResult = Except.error msg →
      (createOrderPost env).1 ≠ 201 ∧ (createOrderPost env).2 = []) ∧
    (∀ a, env.data.deliveryType ≠ DeliveryType.pickup →
      env.data.addressId = some a → a.ownerId ≠ env.userId →
      (createOrderPost env).1 ≠ 201 ∧ (createOrderPost env).2 = []) := by
  refine ⟨createOrderPost_not201 env, ?_, ?_⟩
  · intro msg hsp
    have hne : (createOrderPost env).1 ≠ 201 := by
      intro h201
      obtain ⟨effs, hb, _⟩ := createOrderPost_201_spec env h201
      exact checkoutBody_sp_error env msg hsp effs hb
    exact ⟨hne, createOrderPost_not201 env hne⟩
  · intro a hdt ha hown
    have hne : (createOrderPost env).1 ≠ 201 := by
      intro h201
      obtain ⟨effs, hb, _⟩ := createOrderPost_201_spec env h201
      exact checkoutBody_foreign_address env a hdt ha hown effs hb
    exact ⟨hne, createOrderPost_not201 env hne⟩

/-- A checkout whose stored procedure raises (e.g. a race made the
stock insufficient inside the transaction). -/
def demoSpFailEnv : CheckoutEnv :=
  ⟨true, true, 7, [⟨1, 5, "Мяч"⟩],
   ⟨DeliveryType.pickup, none, none, "онлайн"⟩,
   Except.error "Недостаточно товара"⟩

/-- A checkout paying with a saved address of another user. -/
def demoForeignAddressEnv : CheckoutEnv :=
  ⟨true, true, 7, [⟨1, 5, "Мяч"⟩],
   ⟨DeliveryType.courier, some ⟨12, 8⟩, none, "онлайн"⟩, Except.ok ()⟩

/-- C2 witness: the failing stored procedure and the foreign address
both leave the store untouched. -/
theorem checkout_atomicity_witness :
    (createOrderPost demoSpFailEnv).1 ≠ 201 ∧
    (createOrderPost demoSpFailEnv).2 = [] ∧
    (createOrderPost demoForeignAddressEnv).2 = [] := by
  have h1 := (checkout_atomicity demoSpFailEnv).2.1 "Недостаточно товара" rfl
  have h2 := (checkout_atomicity demoForeignAddressEnv).2.2 ⟨12, 8⟩
    (by decide) rfl (by decide)
  exact ⟨h1.1, h1.2, h2.2⟩

/-- A successful buyer checkout used to exhibit the absence of any
`select_for_update` in the order-creation code path. -/
def c3CheckoutEnv : CheckoutEnv :=
  ⟨true, true, 9, [⟨1, 10, "Кубики"⟩],
   ⟨DeliveryType.pickup, none, none, "онлайн"⟩, Except.ok ()⟩

/-- C3 counterexample: a checkout request that succeeds (201) without
ever acquiring a `select_for_update` row lock — the claim that the
checkout operation locks the rows it reads with `select_for_update`
before creating the order is false of `CreateOrderView.post`. -/
theorem checkout_select_for_update_counterexample :
    (createOrderPost c3CheckoutEnv).1 = 201 ∧
    ∀ t, DbEffect.selectForUpdate t ∉ (createOrderPost c3CheckoutEnv).2 := by
  have heq : createOrderPost c3CheckoutEnv =
      (201, [DbEffect.setAuditUser 9, DbEffect.createAddress 9,
             DbEffect.callProcedure "sp_create_order_from_cart"]) := by decide
  constructor
  · rw [heq]
  · intro t hmem
    rw [heq] at hmem
    simp at hmem

/-- C3 (amended): the application-level checkout code acquires no
`select_for_update` lock at all — locking and the atomic stock
decrement are inside the opaque stored procedure the checkout calls;
`select_for_update` appears in application code only in payment
processing, which locks the order row before every outcome decided
past the lookup. -/
theorem checkout_locking_delegated (env : CheckoutEnv) (penv : PaymentEnv) :
    (∀ t, DbEffect.selectForUpdate t ∉ (createOrderPost env).2) ∧
    ((createOrderPost env).1 = 201 →
      DbEffect.callProcedure "sp_create_order_from_cart" ∈ (createOrderPost env).2) ∧
    (penv.isBuyer = true → penv.dataValid = true → penv.orderFound = true →
      DbEffect.selectForUpdate "order" ∈ (paymentProcessPost penv).2) := by
  refine ⟨?_, ?_, ?_⟩
  · intro t hmem
    by_cases h201 : (createOrderPost env).1 = 201
    · obtain ⟨effs, hb, heq, _⟩ := createOrderPost_201_spec env h201
      rw [heq] at hmem
      rcases (checkoutBody_effects env effs hb).2 _ hmem with h | h | h <;> simp at h
    · rw [createOrderPost_not201 env h201] at hmem
      simp at hmem
  · intro h201
    obtain ⟨effs, hb, heq, _⟩ := createOrderPost_201_spec env h201
    rw [heq]
    exact (checkoutBody_effects env effs hb).1
  · intro hb hv hf
    unfold paymentProcessPost
    simp only [hb, hv, hf]
    split_ifs <;> simp_all

/-- A pending online order of the buyer, about to be paid. -/
def c3PaymentEnv : PaymentEnv := ⟨true, true, true, true, true⟩

/-- C3 witness: the successful checkout commits no lock while the
payment request does lock the order row. -/
theorem checkout_locking_delegated_witness :
    DbEffect.selectForUpdate "order" ∉ (createOrderPost demoGoodEnv).2 ∧
    DbEffect.callProcedure "sp_create_order_from_cart" ∈ (createOrderPost demoGoodEnv).2 ∧
    DbEffect.selectForUpdate "order" ∈ (paymentProcessPost c3PaymentEnv).2 := by
  refine ⟨?_, ?_, ?_⟩
  · exact (checkout_locking_delegated demoGoodEnv c3PaymentEnv).1 "order"
  · exact (checkout_locking_delegated demoGoodEnv c3PaymentEnv).2.1 (by decide)
  · exact (checkout_locking_delegated demoGoodEnv c3PaymentEnv).2.2 rfl rfl rfl

/-! ## Round-trip lemmas (C6) -/

/-- Looking a column up in the zip of distinct columns with their
mapped values yields the mapped value. -/
theorem lookup_zip_map (g : String → String) :
    ∀ (cols : List String), cols.Nodup → ∀ c ∈ cols,
      (List.zip cols (cols.map g)).lookup c = some (g c) := by
  intro cols
  induction cols with
  | nil => intro _ c hc; simp at hc
  | cons x xs ih =>
      intro hnd c hc
      simp only [List.map_cons, List.zip_cons_cons, List.lookup]
      by_cases hcx : x = c
      · subst hcx; simp
      · have hbeq : (c == x) = false := by
          simp only [beq_eq_false_iff_ne, ne_eq]
          exact fun h => hcx h.symm
        rw [hbeq]
        have hcm : c ∈ xs := by
          rcases List.mem_cons.mp hc with h | h
          · exact absurd h.symm hcx
          · exact h
        exact ih (List.nodup_cons.mp hnd).2 c hcm

/-- Parsing an exported row with the exported header recovers each
exported cell of each non-key column. -/
theorem exportRow_lookup (cfg : TableConfig) (hnd : cfg.cols.Nodup)
    (hpk : cfg.pkHeader ∉ cfg.cols) (r : TableRecord) :
    ∀ c ∈ cfg.cols,
      (rowDict (cfg.pkHeader :: cfg.cols) (exportRow cfg r)).lookup c =
        some (exportCell (fieldVal r c)) := by
  intro c hc
  simp only [rowDict, exportRow, List.zip_cons_cons, List.lookup]
  have hbeq : (c == cfg.pkHeader) = false := by
    simp only [beq_eq_false_iff_ne, ne_eq]
    intro h
    exact hpk (h ▸ hc)
  rw [hbeq]
  exact lookup_zip_map (fun c => exportCell (fieldVal r c)) cfg.cols hnd c hc

/-- A normalised field is absent exactly when the exported cell strips
to the empty string. -/
theorem normalizeField_isNone (v : Option String) :
    (normalizeField v).isNone = decide (pyStrip (exportCell v) = "") := by
  by_cases h : pyStrip (exportCell v) = "" <;> simp [normalizeField, h]

/-- The required-column check of the import succeeds exactly when no
required field is lost in normalisation. -/
theorem requiredOk_iff_no_missing (cfg : TableConfig) (r : TableRecord) :
    (cfg.required.filter (fun f => (normalizeField (fieldVal r f)).isNone) = []) ↔
      requiredOk cfg r = true := by
  rw [List.filter_eq_nil_iff]
  simp [requiredOk, List.all_eq_true, Option.isNone_iff_eq_none,
    Option.isSome_iff_ne_none]

theorem assignPks_length (pk : Nat) (l : List (List (String × Option String))) :
    (assignPks pk l).length = l.length := by
  induction l generalizing pk with
  | nil => rfl
  | cons f fs ih => simp [assignPks, ih]

theorem assignPks_fresh (pk : Nat) (l : List (List (String × Option String))) :
    ∀ rec ∈ assignPks pk l, pk ≤ rec.pk := by
  induction l generalizing pk with
  | nil => intro rec h; simp [assignPks] at h
  | cons f fs ih =>
      intro rec h
      simp only [assignPks, List.mem_cons] at h
      rcases h with h | h
      · subst h; exact Nat.le_refl pk
      · exact Nat.le_trans (Nat.le_succ pk) (ih (pk + 1) rec h)

theorem errorSpec_length (cfg : TableConfig) :
    ∀ (rs : List TableRecord) (i : Nat),
      (errorSpec cfg i rs).length = (rs.filter (fun r => ! requiredOk cfg r)).length := by
  intro rs
  induction rs with
  | nil => intro i; rfl
  | cons r rest ih =>
      intro i
      by_cases h : requiredOk cfg r <;>
        simp [errorSpec, h, List.filter_cons, ih]

/-- The row loop of the import, applied to the exported rows: it
creates exactly the normalised image of each passing record, with
consecutive fresh keys, and reports one error per failing record. -/
theorem importRows_exportRow (cfg : TableConfig) (hnd : cfg.cols.Nodup)
    (hpk : cfg.pkHeader ∉ cfg.cols) (hreq : ∀ f ∈ cfg.required, f ∈ cfg.cols) :
    ∀ (rs : List TableRecord) (pk i : Nat),
      importRows cfg (cfg.pkHeader :: cfg.cols) pk i (rs.map (exportRow cfg)) =
        ⟨assignPks pk ((rs.filter (fun r => requiredOk cfg r)).map (roundTripFields cfg)),
         errorSpec cfg i rs⟩ := by
  intro rs
  induction rs with
  | nil => intro pk i; rfl
  | cons r rest ih =>
      intro pk i
      have hmiss :
          (cfg.required.filter
            (fun f => (pyStrip (((rowDict (cfg.pkHeader :: cfg.cols) (exportRow cfg r)).lookup f).getD "") = ""))) =
          (cfg.required.filter (fun f => (normalizeField (fieldVal r f)).isNone)) := by
        apply List.filter_congr
        intro f hf
        rw [exportRow_lookup cfg hnd hpk r f (hreq f hf)]
        simp [normalizeField_isNone]
      have hfields :
          (cfg.cols.map (fun c => (c,
            match (rowDict (cfg.pkHeader :: cfg.cols) (exportRow cfg r)).lookup c with
            | some v => if pyStrip v = "" then none else some (pyStrip v)
            | none => none))) = roundTripFields cfg r := by
        unfold roundTripFields
        apply List.map_congr_left
        intro c hc
        rw [exportRow_lookup cfg hnd hpk r c hc]
        simp [normalizeField]
      by_cases hok : requiredOk cfg r
      · have hnil := (requiredOk_iff_no_missing cfg r).mpr hok
        simp only [List.map_cons, importRows, hmiss, hnil, if_neg (by simp : ¬ ([] : List String) ≠ []),
          hfields, ih, errorSpec, if_pos hok, List.filter_cons_of_pos (by simpa using hok)]
        simp [assignPks]
      · have hnnil : (cfg.required.filter (fun f => (normalizeField (fieldVal r f)).isNone)) ≠ [] := by
          intro hcon
          exact hok ((requiredOk_iff_no_missing cfg r).mp hcon)
        simp only [List.map_cons, importRows, hmiss, if_pos hnnil, ih, errorSpec,
          if_neg hok, List.filter_cons_of_neg (by simpa using hok)]

/-- Importing the file exported from any table state succeeds and
produces exactly the round-trip image. -/
theorem importCsv_exportCsv (cfg : TableConfig) (hnd : cfg.cols.Nodup)
    (hpk : cfg.pkHeader ∉ cfg.cols) (hreq : ∀ f ∈ cfg.required, f ∈ cfg.cols)
    (tbl : List TableRecord) (nextPk : Nat) :
    importCsv cfg nextPk (exportCsv cfg tbl) =
      Except.ok
        ⟨assignPks nextPk
          (((sortByPk tbl).filter (fun r => requiredOk cfg r)).map (roundTripFields cfg)),
         errorSpec cfg 2 (sortByPk tbl)⟩ := by
  have hguard :
      (cfg.required.filter (fun f => ¬ (cfg.pkHeader :: cfg.cols).contains f)) = [] := by
    rw [List.filter_eq_nil_iff]
    intro f hf
    have hm : f ∈ cfg.pkHeader :: cfg.cols := List.mem_cons_of_mem _ (hreq f hf)
    simp [hm]
  unfold importCsv exportCsv
  simp only [hguard]
  rw [if_neg (by simp)]
  rw [importRows_exportRow cfg hnd hpk hreq (sortByPk tbl) nextPk 2]

/-- C6: for each of the tables supporting both export and import
(`product`, `category`, `brand`), importing the exported CSV creates
exactly one record per exported row that passes the required-column
check — its fields the exported values up to string conversion and
stripping, its primary key freshly assigned — and reports one error
per exported row with an empty required column instead of importing
it. -/
theorem export_import_round_trip (tbl : List TableRecord) (nextPk : Nat) :
    ∀ cfg ∈ [productConfig, categoryConfig, brandConfig],
      importCsv cfg nextPk (exportCsv cfg tbl) =
        Except.ok
          ⟨assignPks nextPk
            (((sortByPk tbl).filter (fun r => requiredOk cfg r)).map (roundTripFields cfg)),
           errorSpec cfg 2 (sortByPk tbl)⟩ ∧
      (assignPks nextPk
          (((sortByPk tbl).filter (fun r => requiredOk cfg r)).map (roundTripFields cfg))).length =
        ((sortByPk tbl).filter (fun r => requiredOk cfg r)).length ∧
      (errorSpec cfg 2 (sortByPk tbl)).length =
        ((sortByPk tbl).filter (fun r => ! requiredOk cfg r)).length ∧
      ∀ rec ∈ assignPks nextPk
          (((sortByPk tbl).filter (fun r => requiredOk cfg r)).map (roundTripFields cfg)),
        nextPk ≤ rec.pk := by
  intro cfg hcfg
  have hwf : cfg.cols.Nodup ∧ cfg.pkHeader ∉ cfg.cols ∧
      ∀ f ∈ cfg.required, f ∈ cfg.cols := by
    simp only [List.mem_cons, List.mem_singleton, List.not_mem_nil, or_false] at hcfg
    rcases hcfg with h | h | h <;> subst h <;> refine ⟨by decide, by decide, by decide⟩
  refine ⟨importCsv_exportCsv cfg hwf.1 hwf.2.1 hwf.2.2 tbl nextPk, ?_, ?_, ?_⟩
  · rw [assignPks_length, List.length_map]
  · exact errorSpec_length cfg (sortByPk tbl) 2
  · exact assignPks_fresh nextPk _

/-- A two-record `category` table: record 3 is complete, record 1 has
an empty required `categoryName`. -/
def demoCategoryTable : List TableRecord :=
  [ ⟨3, [("categoryName", some "Игрушки"), ("categoryDescription", some "Описание")]⟩
  , ⟨1, [("categoryName", some ""), ("categoryDescription", none)]⟩ ]

/-- C6 witness: the concrete round trip — record 1 (exported first, CSV
line 2) is skipped with a `categoryName` error, record 3 is re-created
with the fresh key 10 and its exported field values. -/
theorem export_import_round_trip_witness :
    importCsv categoryConfig 10 (exportCsv categoryConfig demoCategoryTable) =
      Except.ok
        ⟨[⟨10, [("categoryName", some "Игрушки"), ("categoryDescription", some "Описание")]⟩],
         [(2, ["categoryName"])]⟩ := by
  have h := (export_import_round_trip demoCategoryTable 10 categoryConfig
    (by simp)).1
  rw [h]
  exact congrArg Except.ok (by decide)

end JoyBox
